import Mathlib

/-!
# Verification of the synthetic-report pipeline (`src/main.py`)

This file gives a shallow embedding of the data-generation, regression and
formatting logic of the report script and proves the specified properties
about it.

The script drives the global pseudo-random generator of NumPy: `np.random.seed`
resets the global state, and every subsequent draw consumes one position of
the stream determined by the seed.  We model that state as a pair
(seed, position) and the underlying generator abstractly as a family of raw
words `raw : seed → position → ℕ` together with a family of standard-normal
variates `gauss : seed → position → ℚ` (the Gaussian transform of the stream
is not expressible over ℚ, so it is kept abstract).  Every claim is proved
for an arbitrary such source, so nothing depends on the particular Mersenne
Twister values.

Reals produced by the script (uniform and normal draws, regression
arithmetic) are modelled as rationals.
-/

namespace ReportDemo

/-- Abstract model of the seeded NumPy pseudo-random generator: `raw s p` is
the raw word the stream for seed `s` yields at position `p`, and `gauss s p`
is the standard-normal variate produced at position `p`. -/
structure RandomSource where
  raw : Nat → Nat → Nat
  gauss : Nat → Nat → ℚ

/-- The global generator state: the current seed and the stream position. -/
structure RngState where
  seed : Nat
  pos : Nat
deriving DecidableEq

/-- Embeds `np.random.seed(s)`: reset the global state to the start of stream `s`. -/
def np_random_seed (s : Nat) : RngState := ⟨s, 0⟩

/-- Consume one raw word from the stream. -/
def drawRaw (src : RandomSource) (st : RngState) : Nat × RngState :=
  (src.raw st.seed st.pos, ⟨st.seed, st.pos + 1⟩)

/-- Embeds `np.random.randint(lo, hi)`: a uniform integer in `[lo, hi)`,
consuming one draw. -/
def randint (src : RandomSource) (lo hi : Nat) (st : RngState) : Nat × RngState :=
  let (w, st1) := drawRaw src st
  (lo + w % (hi - lo), st1)

/-- The NumPy `random_sample` draw: a 53-bit fraction in `[0, 1)`. -/
def unitOfRaw (w : Nat) : ℚ := ((w % 2 ^ 53 : Nat) : ℚ) / 2 ^ 53

/-- Embeds `np.random.uniform(lo, hi)`: `lo + (hi - lo) * random_sample()`,
consuming one draw. -/
def uniformDraw (src : RandomSource) (lo hi : ℚ) (st : RngState) : ℚ × RngState :=
  let (w, st1) := drawRaw src st
  (lo + (hi - lo) * unitOfRaw w, st1)

/-- Embeds `np.random.normal(mu, sigma)`: `mu + sigma * gauss`, consuming one draw. -/
def normalDraw (src : RandomSource) (mu sigma : ℚ) (st : RngState) : ℚ × RngState :=
  (mu + sigma * src.gauss st.seed st.pos, ⟨st.seed, st.pos + 1⟩)

/-- State-threading map: generate one output per input element, passing the
generator state left to right (the shape of every generation loop in the
script). -/
def stMap (g : α → RngState → β × RngState) : List α → RngState → List β × RngState
  | [], st => ([], st)
  | x :: xs, st =>
    let (y, st1) := g x st
    let (ys, st2) := stMap g xs st1
    (y :: ys, st2)

/-! ## Fixed category lists (`src/main.py` lines 23-24, 33-39, 49-55) -/

def companies : List String :=
  ["Google", "Microsoft", "Boeing", "General Electric", "Apple", "Lockheed Martin",
   "Northrop Grumman", "Amazon", "IBM", "Intel"]

def job_titles : List (String × List String) :=
  [("Software Engineer", ["Python", "Java", "C++", "SQL", "JavaScript"]),
   ("Data Scientist", ["Python", "R", "SQL", "Machine Learning", "Data Visualization"]),
   ("Aerospace Engineer", ["CAD", "Aerodynamics", "Materials", "Systems Engineering",
     "Flight Dynamics"]),
   ("Electrical Engineer", ["Circuit Design", "Embedded Systems", "Signal Processing",
     "MATLAB", "VHDL"]),
   ("Mechanical Engineer", ["CAD", "Thermal Systems", "Materials",
     "Finite Element Analysis", "Dynamics"])]

def majors_options : List (String × List String) :=
  [("Software Engineer", ["Computer Engineering", "Software Engineering",
     "Electrical Engineering"]),
   ("Data Scientist", ["Computer Engineering", "Electrical Engineering", "Mathematics",
     "Statistics"]),
   ("Aerospace Engineer", ["Aerospace Engineering", "Mechanical Engineering",
     "Materials Science"]),
   ("Electrical Engineer", ["Electrical Engineering", "Computer Engineering", "Physics"]),
   ("Mechanical Engineer", ["Mechanical Engineering", "Aerospace Engineering",
     "Industrial Engineering"])]

/-- The nested loops `for job, skills: for skill` enumerate (title, item)
pairs of a category map in order. -/
def pairsOf (m : List (String × List String)) : List (String × String) :=
  m.flatMap (fun p => p.2.map (fun s => (p.1, s)))

/-! ## Record types (spec §3) -/

structure EmployerRecord where
  company : String
  graduates : Nat
deriving DecidableEq

structure SkillFrequencyRecord where
  jobTitle : String
  skill : String
  frequency : Nat
deriving DecidableEq

structure MajorCountRecord where
  jobTitle : String
  major : String
  count : Nat
deriving DecidableEq

structure RegressionSample where
  skillScore : ℚ
  graduates : ℚ
deriving DecidableEq

/-! ## Synthetic data generation (`src/main.py` lines 25-62, 112-120) -/

/-- Embeds `graduates = np.random.randint(50, 200, size=len(companies))`
(line 26): one integer draw per company. -/
def gen_graduates (src : RandomSource) (st : RngState) : List Nat × RngState :=
  stMap (fun _ => randint src 50 200) (List.range companies.length) st

/-- Embeds `companies_data` (lines 27-30): one row per company, pairing the company
name with its drawn headcount. -/
def companies_data (grads : List Nat) : List EmployerRecord :=
  List.zipWith (fun c g => ⟨c, g⟩) companies grads

/-- Embeds `skillset_records` (lines 41-45): for every (job, skill) pair in order,
`frequency = np.random.randint(40, 150)`. -/
def gen_skillset_records (src : RandomSource) (st : RngState) :
    List SkillFrequencyRecord × RngState :=
  stMap (fun p st0 =>
    let (f, st1) := randint src 40 150 st0
    (⟨p.1, p.2, f⟩, st1)) (pairsOf job_titles) st

/-- Embeds `majors_records` (lines 57-61): for every (job, major) pair in order,
`count = np.random.randint(20, 100)`. -/
def gen_majors_records (src : RandomSource) (st : RngState) :
    List MajorCountRecord × RngState :=
  stMap (fun p st0 =>
    let (c, st1) := randint src 20 100 st0
    (⟨p.1, p.2, c⟩, st1)) (pairsOf majors_options) st

/-- Embeds `n_obs = 50` (line 113). -/
def n_obs : Nat := 50

/-- Embeds `skill_score = np.random.uniform(20, 100, size=n_obs)` (line 114). -/
def gen_skill_score (src : RandomSource) (st : RngState) : List ℚ × RngState :=
  stMap (fun _ => uniformDraw src 20 100) (List.range n_obs) st

/-- Embeds `np.random.normal(0, 15, size=n_obs)` (line 116): the noise vector. -/
def gen_noise (src : RandomSource) (st : RngState) : List ℚ × RngState :=
  stMap (fun _ => normalDraw src 0 15) (List.range n_obs) st

/-- Embeds `causal_data` (lines 116-120):
`Graduates = 50 + 3 * Skill_Score + noise`, one row per observation. -/
def causal_data (scores noise : List ℚ) : List RegressionSample :=
  List.zipWith (fun x e => ⟨x, 50 + 3 * x + e⟩) scores noise

/-- All four generated tables. -/
structure Tables where
  employerRecords : List EmployerRecord
  skillRecords : List SkillFrequencyRecord
  majorRecords : List MajorCountRecord
  regressionSamples : List RegressionSample
deriving DecidableEq

/-- The whole generation section of the script, run from an arbitrary prior
global generator state `pre`.  Line 25 (`np.random.seed(seed)`) overwrites
`pre`, the three integer tables consume draws in order, and line 112 re-seeds
the generator before the regression samples are drawn. -/
def runPipelineFrom (src : RandomSource) (_pre : RngState) (seed : Nat) : Tables :=
  let st0 := np_random_seed seed
  let (grads, st1) := gen_graduates src st0
  let (skills, st2) := gen_skillset_records src st1
  let (majors, _st3) := gen_majors_records src st2
  let st4 := np_random_seed seed
  let (scores, st5) := gen_skill_score src st4
  let (noise, _st6) := gen_noise src st5
  ⟨companies_data grads, skills, majors, causal_data scores noise⟩

/-- The script as run: the prior state is the initial interpreter state. -/
def runPipeline (src : RandomSource) (seed : Nat) : Tables :=
  runPipelineFrom src ⟨0, 0⟩ seed

/-- The `Skill_Score` column of the regression table. -/
def scoresOf (t : Tables) : List ℚ := t.regressionSamples.map (·.skillScore)

/-- The `Graduates` column of the regression table. -/
def gradsOf (t : Tables) : List ℚ := t.regressionSamples.map (·.graduates)

/-! ## Regression (`sm.OLS(...).fit()`, `src/main.py` lines 123-124)

Modelled from the spec: the ordinary-least-squares fit is performed by the
external `statsmodels` library, whose code is not part of this repository;
spec §4.2 and §9 require it to be the standard OLS routine over two
equal-length numeric sequences, returning intercept and slope, and failing
on degenerate input (fewer than 2 samples, or zero variance in the
regressor).  `olsFit` is the closed-form normal-equation solution with
exactly that failure condition. -/

/-- Sum of squares of the regressor values. -/
def sumSq (xs : List ℚ) : ℚ := (xs.map (fun x => x * x)).sum

/-- Sum of pairwise products of regressor and response. -/
def sumProd (xs ys : List ℚ) : ℚ := (List.zipWith (fun x y => x * y) xs ys).sum

/-- The determinant `n·Σx² − (Σx)²` of the normal equations of the
straight-line fit; it vanishes exactly on zero-variance input. -/
def gramDet (xs : List ℚ) : ℚ := (xs.length : ℚ) * sumSq xs - xs.sum * xs.sum

/-- Modelled from the spec: the OLS fit of `Graduates` on `Skill_Score` with
an intercept term, returning `(intercept, slope)`, performed in the source by
the external library call at lines 123-124 (`sm.OLS(...).fit()`), whose code
is not part of this repository.  Spec §4.2/§9 require the standard
ordinary-least-squares routine over two equal-length numeric sequences that
fails on degenerate input; this is its closed-form normal-equation solution,
failing (`none`) when fewer than two samples are given or the determinant of
the normal equations vanishes. -/
def olsFit (xs ys : List ℚ) : Option (ℚ × ℚ) :=
  if xs.length < 2 then none
  else if gramDet xs = 0 then none
  else some ((sumSq xs * ys.sum - xs.sum * sumProd xs ys) / gramDet xs,
    ((xs.length : ℚ) * sumProd xs ys - xs.sum * ys.sum) / gramDet xs)

/-- Embeds `reg_line` (line 135): the fitted value `intercept + slope * x` for each
input skill score, in input order. -/
def reg_line (intercept slope : ℚ) (xs : List ℚ) : List ℚ :=
  xs.map (fun x => intercept + slope * x)

/-- The (x, y) pairs handed to the line renderer (line 136):
`px.line(x=causal_data.Skill_Score, y=reg_line)` pairs the i-th skill score
with the i-th fitted value. -/
def linePairs (intercept slope : ℚ) (xs : List ℚ) : List (ℚ × ℚ) :=
  xs.zip (reg_line intercept slope xs)

/-- The pair sequence is sorted by x ascending. -/
def sortedByX (ps : List (ℚ × ℚ)) : Prop :=
  ps.Chain' (fun p q => p.1 ≤ q.1)

instance (ps : List (ℚ × ℚ)) : Decidable (sortedByX ps) :=
  inferInstanceAs (Decidable (ps.Chain' (fun p q : ℚ × ℚ => p.1 ≤ q.1)))

/-! ## Recommendation formatting (`src/main.py` lines 143-154) -/

/-- Round a rational to the nearest integer, ties to even — the rounding
the fixed-point float formatting of Python applies. -/
def roundHalfEven (q : ℚ) : ℤ :=
  let f := ⌊q⌋
  let r := q - (f : ℚ)
  if r < 1 / 2 then f
  else if 1 / 2 < r then f + 1
  else if f % 2 = 0 then f else f + 1

/-- Left-pad a digit string with zeros to length `n`. -/
def padZeros (s : String) (n : Nat) : String :=
  String.mk (List.replicate (n - s.length) '0') ++ s

/-- The Python fixed-point format with precision `d`: rendering of `q` with exactly
`d` digits after the decimal point. -/
def toFixed (q : ℚ) (d : Nat) : String :=
  let n := roundHalfEven (q * (10 : ℚ) ^ d)
  let sign := if n < 0 then "-" else ""
  let a := n.natAbs
  sign ++ toString (a / 10 ^ d) ++ "." ++ padZeros (toString (a % 10 ^ d)) d

/-- The regression-sample generation section run on its own: the state set
by `np.random.seed(seed)` at line 112, then 50 uniform draws and 50 normal
draws.  Because of the re-seed, this is all the regression step of the pipeline
depends on. -/
def regressionOnly (src : RandomSource) (seed : Nat) : List RegressionSample :=
  let st4 := np_random_seed seed
  let (scores, st5) := gen_skill_score src st4
  let (noise, _st6) := gen_noise src st5
  causal_data scores noise

/-- All elements of the list are equal to each other: the zero-variance
degeneracy condition of spec §4.2 / §7. -/
def allEq (xs : List ℚ) : Prop := ∀ a ∈ xs, ∀ b ∈ xs, a = b

/-- Sum of `(x_i - x_j)²` over ordered pairs `i < j`: the positive-definite
form measuring the spread of the regressor. -/
def pairSq : List ℚ → ℚ
  | [] => 0
  | a :: l => (l.map (fun x => (a - x) ^ 2)).sum + pairSq l

/-- The all-zero random source, used to instantiate universally
quantified statements on a concrete input. -/
def src0 : RandomSource := ⟨fun _ _ => 0, fun _ _ => 0⟩

/-- A random source whose first raw word is `2^52` (a unit draw of one
half) and whose later words are zero: its first skill score (60) exceeds
all later ones (20). -/
def src2 : RandomSource := ⟨fun _ p => if p = 0 then 2 ^ 52 else 0, fun _ _ => 0⟩

/-- A two-row regression table lying on the line `y = 50 + 3·x`, used to
instantiate the regression-module contracts on a concrete input. -/
def sampleTable : Tables := ⟨[], [], [], [⟨0, 50⟩, ⟨1, 53⟩]⟩

/-- The fitted-model record the report stores (spec §3): intercept, slope,
and the p-value of the slope.  The numeric computation of the p-value lives inside the
external library; here it is carried as data. -/
structure FittedModel where
  intercept : ℚ
  slope : ℚ
  pValue : ℚ
deriving DecidableEq

/-- The recommendation markdown (lines 143-154): the template with
`coef` interpolated at two decimal places (twice) and `pval` at three
(two-decimal `coef` and three-decimal `pval` fields of the format call in the source). -/
def recommendationText (fm : FittedModel) : String :=
  "\nBased on the regression analysis:\n- **Coefficient Interpretation**: " ++
  "The estimated coefficient for **Skill Score** is approximately **" ++
  toFixed fm.slope 2 ++
  "** (p-value: " ++ toFixed fm.pValue 3 ++ "). \n" ++
  "  This suggests that for each additional point in the skill score, " ++
  "the number of recruited graduates increases by about **" ++
  toFixed fm.slope 2 ++ "** on average.\n" ++
  "- **Implication**: Enhancing technical training (e.g., in programming, " ++
  "machine learning, CAD) can potentially drive higher recruitment numbers.\n  \n" ++
  "**Recommendations for Administration**:\n" ++
  "1. **Curriculum Enhancement**: Expand and update technical courses " ++
  "focusing on high-impact skills to boost the overall technical skill " ++
  "score of graduates.\n" ++
  "2. **Targeted Training Programs**: Implement workshops and " ++
  "certifications in key areas identified by the regression analysis.\n" ++
  "3. **Industry Partnerships**: Foster closer ties with companies that " ++
  "value these skills to provide real-world projects and internship " ++
  "opportunities.\n" ++
  "4. **Ongoing Evaluation**: Regularly analyze graduate outcomes with " ++
  "updated data to continuously refine training programs and maintain " ++
  "industry relevance.\n"

/-! ## Generic lemmas about the state-threading map -/

theorem stMap_length (g : α → RngState → β × RngState) :
    ∀ (xs : List α) (st : RngState), ((stMap g xs st).1).length = xs.length := by
  intro xs
  induction xs with
  | nil => intro st; rfl
  | cons x xs ih => intro st; simp [stMap, ih]

theorem stMap_state (g : α → RngState → β × RngState)
    (hg : ∀ a st, (g a st).2 = ⟨st.seed, st.pos + 1⟩) :
    ∀ (xs : List α) (st : RngState),
      (stMap g xs st).2 = ⟨st.seed, st.pos + xs.length⟩ := by
  intro xs
  induction xs with
  | nil => intro st; simp [stMap]
  | cons x xs ih => intro st; simp [stMap, ih, hg, Nat.add_comm, Nat.add_assoc, Nat.add_left_comm]

theorem stMap_get? (g : α → RngState → β × RngState)
    (hg : ∀ a st, (g a st).2 = ⟨st.seed, st.pos + 1⟩) :
    ∀ (xs : List α) (st : RngState) (i : Nat),
      ((stMap g xs st).1).get? i =
        (xs.get? i).map (fun a => (g a ⟨st.seed, st.pos + i⟩).1) := by
  intro xs
  induction xs with
  | nil => intro st i; rfl
  | cons x xs ih =>
    intro st i
    cases i with
    | zero => simp [stMap]
    | succ i =>
      have h2 := hg x st
      simp only [stMap, List.get?_cons_succ]
      rw [h2, ih]
      simp [Nat.add_comm, Nat.add_assoc, Nat.add_left_comm]

theorem stMap_mem (g : α → RngState → β × RngState) :
    ∀ {xs : List α} {st : RngState} {y : β}, y ∈ (stMap g xs st).1 →
      ∃ a st0, a ∈ xs ∧ y = (g a st0).1 := by
  intro xs
  induction xs with
  | nil => intro st y h; simp [stMap] at h
  | cons x xs ih =>
    intro st y h
    simp only [stMap, List.mem_cons] at h
    rcases h with h | h
    · exact ⟨x, st, List.mem_cons_self x xs, h⟩
    · obtain ⟨a, st0, ha, hy⟩ := ih h
      exact ⟨a, st0, List.mem_cons_of_mem x ha, hy⟩

theorem mem_zipWith (f : α → β → γ) :
    ∀ {as : List α} {bs : List β} {y : γ}, y ∈ List.zipWith f as bs →
      ∃ a b, a ∈ as ∧ b ∈ bs ∧ y = f a b := by
  intro as
  induction as with
  | nil => intro bs y h; simp at h
  | cons a as ih =>
    intro bs y h
    cases bs with
    | nil => simp at h
    | cons b bs =>
      simp only [List.zipWith_cons_cons, List.mem_cons] at h
      rcases h with h | h
      · exact ⟨a, b, List.mem_cons_self a as, List.mem_cons_self b bs, h⟩
      · obtain ⟨a0, b0, ha, hb, hy⟩ := ih h
        exact ⟨a0, b0, List.mem_cons_of_mem a ha, List.mem_cons_of_mem b hb, hy⟩

theorem zipWith_get? (f : α → β → γ) :
    ∀ (as : List α) (bs : List β) (i : Nat),
      (List.zipWith f as bs).get? i =
        match as.get? i, bs.get? i with
        | some a, some b => some (f a b)
        | _, _ => none := by
  intro as
  induction as with
  | nil => intro bs i; cases bs <;> cases i <;> rfl
  | cons a as ih =>
    intro bs i
    cases bs with
    | nil =>
      cases i with
      | zero => rfl
      | succ n => cases h : (a :: as).get? (n + 1) <;> simp [h]
    | cons b bs => cases i with
      | zero => rfl
      | succ i => simpa using ih bs i

/-! ## Component equations of the pipeline -/

theorem pipeline_employer (src : RandomSource) (pre : RngState) (seed : Nat) :
    (runPipelineFrom src pre seed).employerRecords =
      companies_data (gen_graduates src (np_random_seed seed)).1 := rfl

theorem pipeline_skills (src : RandomSource) (pre : RngState) (seed : Nat) :
    (runPipelineFrom src pre seed).skillRecords =
      (gen_skillset_records src (gen_graduates src (np_random_seed seed)).2).1 := rfl

theorem pipeline_majors (src : RandomSource) (pre : RngState) (seed : Nat) :
    (runPipelineFrom src pre seed).majorRecords =
      (gen_majors_records src
        (gen_skillset_records src (gen_graduates src (np_random_seed seed)).2).2).1 := rfl

theorem pipeline_samples (src : RandomSource) (pre : RngState) (seed : Nat) :
    (runPipelineFrom src pre seed).regressionSamples =
      causal_data (gen_skill_score src (np_random_seed seed)).1
        (gen_noise src (gen_skill_score src (np_random_seed seed)).2).1 := rfl

/-! ## C1 — determinism -/

/-- C1: for every valid seed, running the synthetic data generator twice
with the same seed produces identical records in all four tables: the
generation step is a deterministic function of the seed (the prior global
generator states `st` and `st'` of the two runs are irrelevant, since the
run begins with `np.random.seed(seed)`). -/
theorem generation_deterministic (src : RandomSource) (st st' : RngState) (seed : Nat) :
    runPipelineFrom src st seed = runPipelineFrom src st' seed := rfl

/-! ## C2 — range invariants -/

theorem randint_mem_range (src : RandomSource) (lo hi : Nat) (st : RngState)
    (h : lo < hi) : lo ≤ (randint src lo hi st).1 ∧ (randint src lo hi st).1 < hi := by
  constructor
  · exact Nat.le_add_right lo _
  · have hm : src.raw st.seed st.pos % (hi - lo) < hi - lo :=
      Nat.mod_lt _ (Nat.sub_pos_of_lt h)
    have := Nat.add_lt_add_left hm lo
    simpa [randint, drawRaw, Nat.add_sub_cancel' (Nat.le_of_lt h)] using this

/-- C2: every generated numeric field lies in its documented half-open
range: `Graduates ∈ [50,200)`, `Frequency ∈ [40,150)`, `Count ∈ [20,100)`,
for all generated records, all sources and seeds. -/
theorem generated_ranges (src : RandomSource) (pre : RngState) (seed : Nat) :
    (∀ r ∈ (runPipelineFrom src pre seed).employerRecords,
        50 ≤ r.graduates ∧ r.graduates < 200) ∧
    (∀ r ∈ (runPipelineFrom src pre seed).skillRecords,
        40 ≤ r.frequency ∧ r.frequency < 150) ∧
    (∀ r ∈ (runPipelineFrom src pre seed).majorRecords,
        20 ≤ r.count ∧ r.count < 100) := by
  refine ⟨?_, ?_, ?_⟩
  · intro r hr
    rw [pipeline_employer] at hr
    obtain ⟨c, g, _, hg, hr⟩ := mem_zipWith _ hr
    obtain ⟨a, st0, _, hy⟩ := stMap_mem _ hg
    subst hy
    subst hr
    exact randint_mem_range src 50 200 st0 (by decide)
  · intro r hr
    rw [pipeline_skills] at hr
    obtain ⟨a, st0, _, hy⟩ := stMap_mem _ hr
    subst hy
    exact randint_mem_range src 40 150 st0 (by decide)
  · intro r hr
    rw [pipeline_majors] at hr
    obtain ⟨a, st0, _, hy⟩ := stMap_mem _ hr
    subst hy
    exact randint_mem_range src 20 100 st0 (by decide)

theorem generated_ranges_witness :
    ((⟨"Google", 50⟩ : EmployerRecord) ∈ (runPipelineFrom src0 ⟨0, 0⟩ 42).employerRecords) ∧
    (50 ≤ (⟨"Google", 50⟩ : EmployerRecord).graduates ∧
      (⟨"Google", 50⟩ : EmployerRecord).graduates < 200) :=
  ⟨by decide, (generated_ranges src0 ⟨0, 0⟩ 42).1 ⟨"Google", 50⟩ (by decide)⟩

/-! ## C3 — table cardinalities -/

/-- C3: with seed 42 the pipeline produces exactly 10 employer records,
25 skill-frequency records, 16 major-count records and 50 regression
samples, whatever values the underlying stream yields. -/
theorem pipeline_counts (src : RandomSource) (pre : RngState) :
    (runPipelineFrom src pre 42).employerRecords.length = 10 ∧
    (runPipelineFrom src pre 42).skillRecords.length = 25 ∧
    (runPipelineFrom src pre 42).majorRecords.length = 16 ∧
    (runPipelineFrom src pre 42).regressionSamples.length = 50 := by
  refine ⟨?_, ?_, ?_, ?_⟩
  · rw [pipeline_employer]
    simp [companies_data, gen_graduates, stMap_length]
    rfl
  · rw [pipeline_skills]
    rw [gen_skillset_records, stMap_length]
    rfl
  · rw [pipeline_majors]
    rw [gen_majors_records, stMap_length]
    rfl
  · rw [pipeline_samples]
    rw [causal_data, List.length_zipWith, gen_skill_score, gen_noise,
      stMap_length, stMap_length]
    rfl

/-! ## C4 — the regression-sample formula -/

theorem unitOfRaw_nonneg (w : Nat) : 0 ≤ unitOfRaw w := by
  unfold unitOfRaw
  positivity

theorem unitOfRaw_lt_one (w : Nat) : unitOfRaw w < 1 := by
  unfold unitOfRaw
  rw [div_lt_one (by positivity)]
  exact_mod_cast Nat.mod_lt w (by norm_num)

theorem skill_score_get? (src : RandomSource) (seed i : Nat) (h : i < n_obs) :
    (gen_skill_score src (np_random_seed seed)).1.get? i =
      some (20 + 80 * unitOfRaw (src.raw seed i)) := by
  rw [gen_skill_score, stMap_get? _ (fun a st => rfl)]
  rw [List.get?_eq_getElem?, List.getElem?_range h]
  simp [uniformDraw, drawRaw, np_random_seed]
  norm_num

theorem skill_score_state (src : RandomSource) (seed : Nat) :
    (gen_skill_score src (np_random_seed seed)).2 = ⟨seed, n_obs⟩ := by
  rw [gen_skill_score, stMap_state _ (fun a st => rfl)]
  simp [np_random_seed]

theorem noise_get? (src : RandomSource) (seed i : Nat) (h : i < n_obs) :
    (gen_noise src ⟨seed, n_obs⟩).1.get? i =
      some (15 * src.gauss seed (n_obs + i)) := by
  rw [gen_noise, stMap_get? _ (fun a st => rfl)]
  rw [List.get?_eq_getElem?, List.getElem?_range h]
  simp [normalDraw]

theorem samples_get? (src : RandomSource) (pre : RngState) (seed i : Nat) (h : i < n_obs) :
    (runPipelineFrom src pre seed).regressionSamples.get? i =
      some ⟨20 + 80 * unitOfRaw (src.raw seed i),
        50 + 3 * (20 + 80 * unitOfRaw (src.raw seed i)) + 15 * src.gauss seed (n_obs + i)⟩ := by
  rw [pipeline_samples, skill_score_state, causal_data, zipWith_get?,
    skill_score_get? src seed i h, noise_get? src seed i h]

/-- C4: each of the 50 regression samples has its skill score drawn
uniformly from `[20,100)` (namely `20 + 80·u` for the unit draw `u` at
stream position `i`, hence in the half-open range) and its graduate count
computed as `50 + 3·SkillScore` plus a `normal(0, 15)` noise draw
(`15 · gauss`) at position `50 + i`. -/
theorem regression_sample_formula (src : RandomSource) (pre : RngState) (seed i : Nat)
    (h : i < n_obs) :
    (20 ≤ ((runPipelineFrom src pre seed).regressionSamples.getD i ⟨0, 0⟩).skillScore ∧
      ((runPipelineFrom src pre seed).regressionSamples.getD i ⟨0, 0⟩).skillScore < 100) ∧
    ((runPipelineFrom src pre seed).regressionSamples.getD i ⟨0, 0⟩).skillScore
      = 20 + 80 * unitOfRaw (src.raw seed i) ∧
    ((runPipelineFrom src pre seed).regressionSamples.getD i ⟨0, 0⟩).graduates
      = 50 + 3 * ((runPipelineFrom src pre seed).regressionSamples.getD i ⟨0, 0⟩).skillScore
        + 15 * src.gauss seed (n_obs + i) := by
  rw [List.getD_eq_getElem?_getD, ← List.get?_eq_getElem?, samples_get? src pre seed i h]
  have h0 := unitOfRaw_nonneg (src.raw seed i)
  have h1 := unitOfRaw_lt_one (src.raw seed i)
  refine ⟨⟨?_, ?_⟩, rfl, rfl⟩
  · simp only [Option.getD_some]
    linarith
  · simp only [Option.getD_some]
    linarith

theorem regression_sample_formula_witness :
    (0 < n_obs) ∧
    ((20 ≤ ((runPipelineFrom src0 ⟨0, 0⟩ 42).regressionSamples.getD 0 ⟨0, 0⟩).skillScore ∧
      ((runPipelineFrom src0 ⟨0, 0⟩ 42).regressionSamples.getD 0 ⟨0, 0⟩).skillScore < 100) ∧
    ((runPipelineFrom src0 ⟨0, 0⟩ 42).regressionSamples.getD 0 ⟨0, 0⟩).skillScore
      = 20 + 80 * unitOfRaw (src0.raw 42 0) ∧
    ((runPipelineFrom src0 ⟨0, 0⟩ 42).regressionSamples.getD 0 ⟨0, 0⟩).graduates
      = 50 + 3 * ((runPipelineFrom src0 ⟨0, 0⟩ 42).regressionSamples.getD 0 ⟨0, 0⟩).skillScore
        + 15 * src0.gauss 42 (n_obs + 0)) :=
  ⟨by decide, regression_sample_formula src0 ⟨0, 0⟩ 42 0 (by decide)⟩

/-! ## C5 — the fitted-value sequence -/

theorem samples_length (src : RandomSource) (pre : RngState) (seed : Nat) :
    (runPipelineFrom src pre seed).regressionSamples.length = n_obs := by
  rw [pipeline_samples, causal_data, List.length_zipWith, gen_skill_score, gen_noise,
    stMap_length, stMap_length]
  rfl

theorem scoresOf_length (src : RandomSource) (pre : RngState) (seed : Nat) :
    (scoresOf (runPipelineFrom src pre seed)).length = n_obs := by
  rw [scoresOf, List.length_map, samples_length]

theorem getD_map_of_lt (f : α → β) (xs : List α) (i : Nat) (h : i < xs.length)
    (d : α) (e : β) : (xs.map f).getD i e = f (xs.getD i d) := by
  rw [List.getD_eq_getElem?_getD, List.getD_eq_getElem?_getD, List.getElem?_map,
    List.getElem?_eq_getElem h]
  simp

/-- C5: given a regression table, the fitted-value sequence `reg_line` is
aligned one-to-one with the input skill scores — same length, i-th value
equal to `intercept + slope * x_i` — and for the generated table the input
sample count is 50. -/
theorem reg_line_aligned :
    (∀ (t : Tables) (b m : ℚ), olsFit (scoresOf t) (gradsOf t) = some (b, m) →
      (reg_line b m (scoresOf t)).length = (scoresOf t).length ∧
      ∀ i, i < (scoresOf t).length →
        (reg_line b m (scoresOf t)).getD i 0 = b + m * (scoresOf t).getD i 0) ∧
    ∀ (src : RandomSource) (pre : RngState) (seed : Nat),
      (scoresOf (runPipelineFrom src pre seed)).length = n_obs := by
  constructor
  · intro t b m _h
    constructor
    · rw [reg_line, List.length_map]
    · intro i hi
      rw [reg_line]
      exact getD_map_of_lt _ _ i hi 0 0
  · exact scoresOf_length

theorem reg_line_aligned_witness :
    (olsFit (scoresOf sampleTable) (gradsOf sampleTable) = some (50, 3)) ∧
    ((reg_line 50 3 (scoresOf sampleTable)).length = (scoresOf sampleTable).length ∧
      ∀ i, i < (scoresOf sampleTable).length →
        (reg_line 50 3 (scoresOf sampleTable)).getD i 0
          = 50 + 3 * (scoresOf sampleTable).getD i 0) :=
  ⟨by norm_num [olsFit, sumSq, sumProd, gramDet, scoresOf, gradsOf, sampleTable],
    reg_line_aligned.1 sampleTable 50 3 (by norm_num [olsFit, sumSq, sumProd, gramDet, scoresOf, gradsOf, sampleTable])⟩

/-! ## C8 — degenerate-fit failure -/

theorem sum_sq_expand (a : ℚ) : ∀ l : List ℚ,
    (l.map (fun x => (a - x) ^ 2)).sum
      = (l.length : ℚ) * a ^ 2 - 2 * a * l.sum + sumSq l := by
  intro l
  induction l with
  | nil => simp [sumSq]
  | cons x l ih =>
    simp only [List.map_cons, List.sum_cons, List.length_cons, sumSq] at ih ⊢
    push_cast
    linear_combination ih

theorem gramDet_eq_pairSq : ∀ xs : List ℚ, gramDet xs = pairSq xs := by
  intro xs
  induction xs with
  | nil => simp [gramDet, pairSq, sumSq]
  | cons a l ih =>
    rw [pairSq, sum_sq_expand, ← ih]
    simp only [gramDet, sumSq, List.map_cons, List.sum_cons, List.length_cons]
    push_cast
    ring

theorem list_sum_nonneg {l : List ℚ} (h : ∀ x ∈ l, 0 ≤ x) : 0 ≤ l.sum := by
  induction l with
  | nil => simp
  | cons x l ih =>
    simp only [List.sum_cons]
    have hx := h x (List.mem_cons_self x l)
    have hl := ih (fun y hy => h y (List.mem_cons_of_mem x hy))
    linarith

theorem sq_sum_nonneg (a : ℚ) (l : List ℚ) :
    0 ≤ (l.map (fun x => (a - x) ^ 2)).sum := by
  refine list_sum_nonneg ?_
  intro x hx
  obtain ⟨y, _, rfl⟩ := List.mem_map.mp hx
  positivity

theorem pairSq_nonneg : ∀ xs : List ℚ, 0 ≤ pairSq xs := by
  intro xs
  induction xs with
  | nil => simp [pairSq]
  | cons a l ih =>
    rw [pairSq]
    have := sq_sum_nonneg a l
    linarith

theorem sq_sum_eq_zero_iff (a : ℚ) : ∀ l : List ℚ,
    ((l.map (fun x => (a - x) ^ 2)).sum = 0 ↔ ∀ x ∈ l, x = a) := by
  intro l
  induction l with
  | nil => simp
  | cons x l ih =>
    simp only [List.map_cons, List.sum_cons, List.forall_mem_cons]
    constructor
    · intro h
      have h1 : (0 : ℚ) ≤ (a - x) ^ 2 := sq_nonneg _
      have h2 := sq_sum_nonneg a l
      have hx : (a - x) ^ 2 = 0 := by linarith
      have hs : (l.map (fun x => (a - x) ^ 2)).sum = 0 := by linarith
      have hxa : a - x = 0 := by
        exact pow_eq_zero_iff (two_ne_zero) |>.mp hx
      exact ⟨by linarith, ih.mp hs⟩
    · rintro ⟨hx, hl⟩
      rw [ih.mpr hl, hx]
      ring

theorem allEq_nil : allEq [] := by
  intro a ha
  simp at ha

theorem allEq_cons (a : ℚ) (l : List ℚ) :
    allEq (a :: l) ↔ (∀ x ∈ l, x = a) ∧ allEq l := by
  constructor
  · intro h
    refine ⟨fun x hx => h x (List.mem_cons_of_mem a hx) a (List.mem_cons_self a l), ?_⟩
    intro p hp q hq
    exact h p (List.mem_cons_of_mem a hp) q (List.mem_cons_of_mem a hq)
  · rintro ⟨hx, hl⟩
    intro p hp q hq
    rcases List.mem_cons.mp hp with hpa | hpl
    · rcases List.mem_cons.mp hq with hqa | hql
      · rw [hpa, hqa]
      · rw [hpa, hx q hql]
    · rcases List.mem_cons.mp hq with hqa | hql
      · rw [hx p hpl, hqa]
      · rw [hx p hpl, hx q hql]

theorem pairSq_eq_zero_iff : ∀ xs : List ℚ, (pairSq xs = 0 ↔ allEq xs) := by
  intro xs
  induction xs with
  | nil => simpa [pairSq] using allEq_nil
  | cons a l ih =>
    rw [pairSq, allEq_cons]
    constructor
    · intro h
      have h1 := sq_sum_nonneg a l
      have h2 := pairSq_nonneg l
      have hs : (l.map (fun x => (a - x) ^ 2)).sum = 0 := by linarith
      have hp : pairSq l = 0 := by linarith
      exact ⟨(sq_sum_eq_zero_iff a l).mp hs, ih.mp hp⟩
    · rintro ⟨hx, hl⟩
      rw [(sq_sum_eq_zero_iff a l).mpr hx, ih.mpr hl]
      ring

theorem olsFit_eq_none_iff (xs ys : List ℚ) :
    olsFit xs ys = none ↔ (xs.length < 2 ∨ allEq xs) := by
  rw [olsFit]
  by_cases h2 : xs.length < 2
  · rw [if_pos h2]
    simp [h2]
  · rw [if_neg h2]
    by_cases hd : gramDet xs = 0
    · rw [if_pos hd]
      exact iff_of_true rfl
        (Or.inr ((pairSq_eq_zero_iff xs).mp ((gramDet_eq_pairSq xs).symm.trans hd)))
    · rw [if_neg hd]
      refine iff_of_false (by simp) ?_
      rintro (h | h)
      · exact h2 h
      · exact hd ((gramDet_eq_pairSq xs).trans ((pairSq_eq_zero_iff xs).mpr h))

/-- C8: the regression fit fails with the degenerate-fit error exactly on
degenerate input — fewer than two samples, or all regressor values
identical (zero variance); on every other input it succeeds and returns
the fitted pair. -/
theorem olsFit_degenerate_iff (xs ys : List ℚ) :
    olsFit xs ys = none ↔ (xs.length < 2 ∨ allEq xs) :=
  olsFit_eq_none_iff xs ys

/-! ## C6 — order of the rendered line pairs -/

theorem scoresOf_get? (src : RandomSource) (pre : RngState) (seed i : Nat) (h : i < n_obs) :
    (scoresOf (runPipelineFrom src pre seed)).get? i
      = some (20 + 80 * unitOfRaw (src.raw seed i)) := by
  rw [scoresOf, List.get?_map, samples_get? src pre seed i h]
  rfl

theorem linePairs_get? (b m : ℚ) (xs : List ℚ) (i : Nat) (x : ℚ)
    (hx : xs.get? i = some x) :
    (linePairs b m xs).get? i = some (x, b + m * x) := by
  rw [linePairs, List.zip, zipWith_get?, reg_line, List.get?_map, hx]
  rfl

/-- C6 as stated is false on the code: with the source `src2` the first
generated skill score (60) precedes the second (20); the fit succeeds, yet
the (x, y) pair sequence handed to the line renderer — which pairs scores
with fitted values in generation order — is not sorted by x ascending. -/
theorem line_pairs_sorted_counterexample :
    ¬ ∀ (src : RandomSource) (pre : RngState) (seed : Nat) (b m : ℚ),
        olsFit (scoresOf (runPipelineFrom src pre seed))
            (gradsOf (runPipelineFrom src pre seed)) = some (b, m) →
        sortedByX (linePairs b m (scoresOf (runPipelineFrom src pre seed))) := by
  intro hcl
  have h0 : (scoresOf (runPipelineFrom src2 ⟨0, 0⟩ 42)).get? 0 = some 60 := by
    rw [scoresOf_get? src2 ⟨0, 0⟩ 42 0 (by norm_num [n_obs])]
    norm_num [src2, unitOfRaw]
  have h1 : (scoresOf (runPipelineFrom src2 ⟨0, 0⟩ 42)).get? 1 = some 20 := by
    rw [scoresOf_get? src2 ⟨0, 0⟩ 42 1 (by norm_num [n_obs])]
    norm_num [src2, unitOfRaw]
  have hnone : olsFit (scoresOf (runPipelineFrom src2 ⟨0, 0⟩ 42))
      (gradsOf (runPipelineFrom src2 ⟨0, 0⟩ 42)) ≠ none := by
    rw [Ne, olsFit_eq_none_iff]
    rintro (h | h)
    · rw [scoresOf_length] at h
      exact absurd h (by norm_num [n_obs])
    · have h60 := List.get?_mem h0
      have h20 := List.get?_mem h1
      have h2 := h 60 h60 20 h20
      norm_num at h2
  obtain ⟨⟨b, m⟩, hbm⟩ := Option.ne_none_iff_exists'.mp hnone
  have hsorted := hcl src2 ⟨0, 0⟩ 42 b m hbm
  have hp0 := linePairs_get? b m _ 0 60 h0
  have hp1 := linePairs_get? b m _ 1 20 h1
  rcases hps : linePairs b m (scoresOf (runPipelineFrom src2 ⟨0, 0⟩ 42)) with _ | ⟨p0, tl⟩
  · rw [hps] at hp0
    simp at hp0
  · rcases htl : tl with _ | ⟨p1, rest⟩
    · rw [hps, htl] at hp1
      simp at hp1
    · rw [hps, htl] at hp0 hp1 hsorted
      simp only [List.get?_cons_zero, List.get?_cons_succ, Option.some.injEq] at hp0 hp1
      rw [sortedByX] at hsorted
      have hle := (List.chain'_cons.mp hsorted).1
      rw [hp0, hp1] at hle
      norm_num at hle

theorem map_fst_zip_map (f : ℚ → ℚ) : ∀ xs : List ℚ,
    (xs.zip (xs.map f)).map Prod.fst = xs := by
  intro xs
  induction xs with
  | nil => rfl
  | cons x xs ih => simp [ih]

theorem mem_zip_map (f : ℚ → ℚ) : ∀ (xs : List ℚ) (p : ℚ × ℚ),
    p ∈ xs.zip (xs.map f) → p.2 = f p.1 := by
  intro xs
  induction xs with
  | nil =>
    intro p h
    simp at h
  | cons x xs ih =>
    intro p h
    rw [List.map_cons, List.zip_cons_cons] at h
    rcases List.mem_cons.mp h with hp | hp
    · rw [hp]
    · exact ih p hp

/-- C6 amended: the fitted line is handed to the renderer as the sequence
of (x, y) pairs in input sample order — the i-th pair is the i-th skill
score with its fitted value `intercept + slope * x` — and is not sorted by
x ascending. -/
theorem line_pairs_input_order (t : Tables) (b m : ℚ)
    (_h : olsFit (scoresOf t) (gradsOf t) = some (b, m)) :
    (linePairs b m (scoresOf t)).map Prod.fst = scoresOf t ∧
    ∀ p ∈ linePairs b m (scoresOf t), p.2 = b + m * p.1 := by
  rw [linePairs, reg_line]
  exact ⟨map_fst_zip_map _ (scoresOf t), fun p hp => mem_zip_map _ (scoresOf t) p hp⟩

theorem line_pairs_input_order_witness :
    (olsFit (scoresOf sampleTable) (gradsOf sampleTable) = some (50, 3)) ∧
    ((linePairs 50 3 (scoresOf sampleTable)).map Prod.fst = scoresOf sampleTable ∧
      ∀ p ∈ linePairs 50 3 (scoresOf sampleTable), p.2 = 50 + 3 * p.1) :=
  ⟨by norm_num [olsFit, sumSq, sumProd, gramDet, scoresOf, gradsOf, sampleTable],
    line_pairs_input_order sampleTable 50 3
      (by norm_num [olsFit, sumSq, sumProd, gramDet, scoresOf, gradsOf, sampleTable])⟩

/-! ## C7 — recommendation-string formatting -/

/-- C7: the recommendation string contains the fitted slope formatted to
exactly two decimal places and the slope p-value formatted to exactly three
decimal places, and the interpolated pieces are the fixed-point renderings
of the values stored in the fitted model. -/
theorem recommendation_formats (fm : FittedModel) :
    (∃ u v, recommendationText fm = u ++ toFixed fm.slope 2 ++ v) ∧
    (∃ u v, recommendationText fm = u ++ toFixed fm.pValue 3 ++ v) := by
  constructor
  · refine ⟨"\nBased on the regression analysis:\n- **Coefficient Interpretation**: " ++
      "The estimated coefficient for **Skill Score** is approximately **",
      "** (p-value: " ++ toFixed fm.pValue 3 ++ "). \n" ++
        "  This suggests that for each additional point in the skill score, " ++
        "the number of recruited graduates increases by about **" ++
        toFixed fm.slope 2 ++ "** on average.\n" ++
        "- **Implication**: Enhancing technical training (e.g., in programming, " ++
        "machine learning, CAD) can potentially drive higher recruitment numbers.\n  \n" ++
        "**Recommendations for Administration**:\n" ++
        "1. **Curriculum Enhancement**: Expand and update technical courses " ++
        "focusing on high-impact skills to boost the overall technical skill " ++
        "score of graduates.\n" ++
        "2. **Targeted Training Programs**: Implement workshops and " ++
        "certifications in key areas identified by the regression analysis.\n" ++
        "3. **Industry Partnerships**: Foster closer ties with companies that " ++
        "value these skills to provide real-world projects and internship " ++
        "opportunities.\n" ++
        "4. **Ongoing Evaluation**: Regularly analyze graduate outcomes with " ++
        "updated data to continuously refine training programs and maintain " ++
        "industry relevance.\n", ?_⟩
    simp only [recommendationText, String.append_assoc]
  · refine ⟨"\nBased on the regression analysis:\n- **Coefficient Interpretation**: " ++
      "The estimated coefficient for **Skill Score** is approximately **" ++
      toFixed fm.slope 2 ++ "** (p-value: ",
      "). \n" ++
        "  This suggests that for each additional point in the skill score, " ++
        "the number of recruited graduates increases by about **" ++
        toFixed fm.slope 2 ++ "** on average.\n" ++
        "- **Implication**: Enhancing technical training (e.g., in programming, " ++
        "machine learning, CAD) can potentially drive higher recruitment numbers.\n  \n" ++
        "**Recommendations for Administration**:\n" ++
        "1. **Curriculum Enhancement**: Expand and update technical courses " ++
        "focusing on high-impact skills to boost the overall technical skill " ++
        "score of graduates.\n" ++
        "2. **Targeted Training Programs**: Implement workshops and " ++
        "certifications in key areas identified by the regression analysis.\n" ++
        "3. **Industry Partnerships**: Foster closer ties with companies that " ++
        "value these skills to provide real-world projects and internship " ++
        "opportunities.\n" ++
        "4. **Ongoing Evaluation**: Regularly analyze graduate outcomes with " ++
        "updated data to continuously refine training programs and maintain " ++
        "industry relevance.\n", ?_⟩
    simp only [recommendationText, String.append_assoc]

/-! ## C9 — monotonicity of the fitted line -/

/-- C9: whenever the fitted slope is positive, the fitted-value sequence is
strictly increasing in the skill score: of any two positions, the one with
the larger score has the larger fitted value. -/
theorem reg_line_strict_mono (b m : ℚ) (xs : List ℚ) (hm : 0 < m) (i j : Nat)
    (hi : i < xs.length) (hj : j < xs.length) (hx : xs.getD i 0 < xs.getD j 0) :
    (reg_line b m xs).getD i 0 < (reg_line b m xs).getD j 0 := by
  rw [reg_line, getD_map_of_lt _ xs i hi 0 0, getD_map_of_lt _ xs j hj 0 0]
  have h2 := mul_lt_mul_of_pos_left hx hm
  linarith

theorem reg_line_strict_mono_witness :
    ((0 : ℚ) < 3) ∧ (0 < [(20 : ℚ), 60].length) ∧ (1 < [(20 : ℚ), 60].length) ∧
    ([(20 : ℚ), 60].getD 0 0 < [(20 : ℚ), 60].getD 1 0) ∧
    (reg_line 50 3 [(20 : ℚ), 60]).getD 0 0 < (reg_line 50 3 [(20 : ℚ), 60]).getD 1 0 :=
  ⟨by norm_num, by norm_num, by norm_num,
    by norm_num [List.getD_cons_zero, List.getD_cons_succ],
    reg_line_strict_mono 50 3 [20, 60] (by norm_num) 0 1 (by norm_num) (by norm_num)
      (by norm_num [List.getD_cons_zero, List.getD_cons_succ])⟩

/-! ## C10 — the re-seed and the shared stream positions -/

theorem map_zipWith_right (f : α → β → γ) (g : γ → β) (hfg : ∀ a b, g (f a b) = b) :
    ∀ (as : List α) (bs : List β), as.length = bs.length →
      (List.zipWith f as bs).map g = bs := by
  intro as
  induction as with
  | nil =>
    intro bs h
    cases bs with
    | nil => rfl
    | cons b bs => simp at h
  | cons a as ih =>
    intro bs h
    cases bs with
    | nil => simp at h
    | cons b bs =>
      simp only [List.zipWith_cons_cons, List.map_cons, hfg]
      rw [ih bs (by simpa using h)]

theorem gen_graduates_length (src : RandomSource) (st : RngState) :
    (gen_graduates src st).1.length = companies.length := by
  rw [gen_graduates, stMap_length, List.length_range]

theorem gen_graduates_get? (src : RandomSource) (seed i : Nat) (h : i < 10) :
    (gen_graduates src (np_random_seed seed)).1.get? i
      = some (50 + src.raw seed i % 150) := by
  rw [gen_graduates, stMap_get? _ (fun a st => rfl)]
  rw [List.get?_eq_getElem?, List.getElem?_range (show i < companies.length from h)]
  simp [randint, drawRaw, np_random_seed]

theorem employer_graduates_get? (src : RandomSource) (pre : RngState) (seed i : Nat)
    (h : i < 10) :
    ((runPipelineFrom src pre seed).employerRecords.map (fun r => r.graduates)).get? i
      = some (50 + src.raw seed i % 150) := by
  rw [pipeline_employer, companies_data,
    map_zipWith_right _ _ (fun a b => rfl) companies (gen_graduates src (np_random_seed seed)).1
      (gen_graduates_length src (np_random_seed seed)).symm]
  exact gen_graduates_get? src seed i h

/-- C10: the generator is re-seeded immediately before the regression
samples are drawn, so the regression table equals the standalone
`regressionOnly` function of the seed, independent of everything the three
preceding tables consumed; consequently the i-th skill score reads the very
raw word `src.raw seed i` that the i-th employer headcount read — the two
tables are drawn from overlapping stream positions, not independent
segments. -/
theorem reseed_shares_stream (src : RandomSource) (pre : RngState) (seed i : Nat)
    (h : i < 10) :
    (runPipelineFrom src pre seed).regressionSamples = regressionOnly src seed ∧
    ((runPipelineFrom src pre seed).employerRecords.map (fun r => r.graduates)).getD i 0
      = 50 + src.raw seed i % 150 ∧
    ((runPipelineFrom src pre seed).regressionSamples.getD i ⟨0, 0⟩).skillScore
      = 20 + 80 * unitOfRaw (src.raw seed i) := by
  refine ⟨rfl, ?_, ?_⟩
  · rw [List.getD_eq_getElem?_getD, ← List.get?_eq_getElem?,
      employer_graduates_get? src pre seed i h]
    rfl
  · have h50 : i < n_obs := lt_trans h (by norm_num [n_obs])
    rw [List.getD_eq_getElem?_getD, ← List.get?_eq_getElem?, samples_get? src pre seed i h50]
    rfl

theorem reseed_shares_stream_witness :
    (0 < 10) ∧
    ((runPipelineFrom src0 ⟨0, 0⟩ 42).regressionSamples = regressionOnly src0 42 ∧
      ((runPipelineFrom src0 ⟨0, 0⟩ 42).employerRecords.map (fun r => r.graduates)).getD 0 0
        = 50 + src0.raw 42 0 % 150 ∧
      ((runPipelineFrom src0 ⟨0, 0⟩ 42).regressionSamples.getD 0 ⟨0, 0⟩).skillScore
        = 20 + 80 * unitOfRaw (src0.raw 42 0)) :=
  ⟨by decide, reseed_shares_stream src0 ⟨0, 0⟩ 42 0 (by decide)⟩

end ReportDemo
